import Mathlib

/-!
# Verification of the CSV column chooser (src/csv_filter.py)

The program is a Streamlit app whose data path is, per request:

  raw bytes --pd.read_csv--> DataFrame --df.empty guard-->
  multiselect over df.columns --empty-selection guard-->
  df[selected_cols] --to_csv_bytes--> download bytes.

We embed that path shallowly:

* A pandas `DataFrame` holding parsed CSV text is modelled as an ordered
  list of column names together with the list of rows, every cell kept in
  its textual form (`String`).  Missing values (pandas `NaN`, produced by
  padding short rows, written back as the empty field by `to_csv`) are
  modelled as the empty string, their textual form.
* `read_csv` models `pd.read_csv` on decoded text: first parsed record is
  the header, blank lines are skipped, rows shorter than the header are
  padded with missing values, a row longer than the header is a parse
  error, standard CSV quoting (`"`-quoted fields, doubled quotes) is
  honoured.  All `pd.read_csv` exceptions are caught by the single
  `except` at line 42, so the model has one `ReadError`.  Not modelled:
  byte-level decoding (inputs are the decoded text; undecodable bytes are
  one more member of the caught-exception class), the renaming of empty
  or duplicated header names (`Unnamed: k`, `name.1`), and the implicit
  index-column inference for ragged input — theorems that quantify over
  documents carry hypotheses keeping them away from those corners.
* `DataFrame.select` models `df[selected_cols]` (line 69): it requires
  every requested name to be a column (otherwise pandas raises `KeyError`,
  modelled as `none`) and returns one output column per requested name,
  in requested order — a duplicated name yields a duplicated column.
* `to_csv_bytes` models `to_csv_bytes` (lines 18–20),
  i.e. `df.to_csv(index=False).encode("utf-8")`: header line first, no
  index column, `QUOTE_MINIMAL` quoting (a field is quoted exactly when
  it contains the delimiter, the quote character, or a newline /
  carriage return), rows terminated by `\n`.  The byte result is
  modelled as the UTF-8 `String` it encodes.
* `appMain` models the control flow of `main` (lines 23–86) on the state the
  UI hands it: the uploaded content (if any) and the multiselect, a
  function from the offered options (`df.columns`) to the chosen ones.
  `st.stop` exits are `AppOutcome.stopped`; an uncaught exception at
  line 69 would be `AppOutcome.crashed`.
* The spec's error taxonomy maps onto this code: `ParseError` is the
  caught-exception branch (lines 42–44), `EmptyDocumentError` the
  `df.empty` branch (lines 46–48), `InvalidSelectionError` the
  empty-selection guard (lines 64–66) together with the `KeyError` of
  line 69; `parseDoc` and `project` package the corresponding code paths
  as `Except` values.
-/

/-- A raw CSV field, as a list of characters. -/
abbrev CsvField := List Char

/-- `QUOTE_MINIMAL`: a field must be quoted when it contains the delimiter,
the quote character, or a line-break character. -/
def needsQuote (f : CsvField) : Bool :=
  f.any (fun c => c = ',' || c = '"' || c = '\n' || c = '\r')

/-- Double every quote character, as the csv writer does inside a quoted
field. -/
def escapeQuotes : CsvField → CsvField
  | [] => []
  | c :: cs => if c = '"' then '"' :: '"' :: escapeQuotes cs else c :: escapeQuotes cs

/-- Write one field, quoting it exactly when `QUOTE_MINIMAL` requires. -/
def renderField (f : CsvField) : List Char :=
  if needsQuote f then '"' :: (escapeQuotes f ++ ['"']) else f

/-- Write one record: its fields separated by commas. -/
def renderRecord : List CsvField → List Char
  | [] => []
  | [f] => renderField f
  | f :: g :: t => renderField f ++ ',' :: renderRecord (g :: t)

/-- Write a record sequence: each record followed by `\n` (pandas
`to_csv` terminates every row, the last one included). -/
def renderCSV : List (List CsvField) → List Char
  | [] => []
  | r :: rs => renderRecord r ++ '\n' :: renderCSV rs

/-- Read the body of a quoted field: a doubled quote is a literal quote,
a single quote closes the field, everything else is literal. -/
def parseQuotedBody : List Char → CsvField × List Char
  | [] => ([], [])
  | c :: rest =>
    if c = '"' then
      match rest with
      | [] => ([], [])
      | d :: rest2 =>
        if d = '"' then
          let p := parseQuotedBody rest2
          ('"' :: p.1, p.2)
        else ([], d :: rest2)
    else
      let p := parseQuotedBody rest
      (c :: p.1, p.2)

/-- Read an unquoted field: everything up to the next delimiter or
end of line. -/
def parseUnquotedBody : List Char → CsvField × List Char
  | [] => ([], [])
  | c :: rest =>
    if c = ',' ∨ c = '\n' then ([], c :: rest)
    else
      let p := parseUnquotedBody rest
      (c :: p.1, p.2)

/-- Read one field: quoted when it opens with a quote character. -/
def parseField1 (l : List Char) : CsvField × List Char :=
  match l with
  | [] => ([], [])
  | c :: rest => if c = '"' then parseQuotedBody rest else parseUnquotedBody l

/-- Read one record: comma-separated fields up to the end of the line.
The fuel bounds the number of fields; `input length + 1` always
suffices. -/
def parseRecordF : Nat → List Char → List CsvField × List Char
  | 0, l => ([], l)
  | fuel + 1, l =>
    let p := parseField1 l
    match p.2 with
    | [] => ([p.1], [])
    | c :: rest =>
      if c = ',' then
        let q := parseRecordF fuel rest
        (p.1 :: q.1, q.2)
      else if c = '\n' then ([p.1], rest)
      else
        let q := parseRecordF fuel rest
        (p.1 :: q.1, q.2)

/-- Read all records.  The fuel bounds the number of records;
`input length + 1` always suffices. -/
def parseRecordsF : Nat → List Char → List (List CsvField)
  | 0, _ => []
  | fuel + 1, l =>
    if l.isEmpty then []
    else
      let p := parseRecordF (l.length + 1) l
      p.1 :: parseRecordsF fuel p.2

/-- The in-memory tabular document: a pandas `DataFrame` as the app uses
it — ordered column names and rows of textual cell values. -/
structure DataFrame where
  columns : List String
  rows : List (List String)

deriving instance DecidableEq for DataFrame

/-- `df.empty` (line 46): true when the frame has no rows or no
columns. -/
def DataFrame.empty (df : DataFrame) : Bool :=
  df.rows.isEmpty || df.columns.isEmpty

/-- The spec's TabularDocument invariant (§3): unique column names and
every row aligned with the header. -/
def DataFrame.valid (df : DataFrame) : Prop :=
  df.columns.Nodup ∧ ∀ r ∈ df.rows, r.length = df.columns.length

instance (df : DataFrame) : Decidable df.valid := by
  unfold DataFrame.valid
  infer_instance

/-- Every `pd.read_csv` exception is caught by the one `except` at
line 42, so the model needs a single error. -/
inductive ReadError
  | parseError

deriving instance DecidableEq for ReadError

/-- Pad a short row to the header width with missing values, as
`pd.read_csv` does. -/
def padRow (n : Nat) (r : List CsvField) : List CsvField :=
  r ++ List.replicate (n - r.length) []

/-- `pd.read_csv` (line 41) on decoded text: split into records, skip
blank lines, take the first record as header, pad short rows, reject a
row wider than the header, reject input with no records at all. -/
def read_csv (s : String) : Except ReadError DataFrame :=
  let recs := (parseRecordsF (s.data.length + 1) s.data).filter (fun r => r ≠ [[]])
  match recs with
  | [] => .error .parseError
  | header :: rows =>
    if rows.any (fun r => header.length < r.length) then .error .parseError
    else
      .ok ⟨header.map (fun f => String.mk f),
           rows.map (fun r => (padRow header.length r).map (fun f => String.mk f))⟩

/-- The spec's parse-stage error taxonomy over the code's two guard
branches: the caught exception (lines 42–44) and the `df.empty` stop
(lines 46–48). -/
inductive ParseFailure
  | parseError
  | emptyDocument

deriving instance DecidableEq for ParseFailure

/-- The parse stage of the pipeline: `pd.read_csv` under `try/except`,
then the `df.empty` guard. -/
def parseDoc (s : String) : Except ParseFailure DataFrame :=
  match read_csv s with
  | .error _ => .error .parseError
  | .ok df => if df.empty then .error .emptyDocument else .ok df

/-- The spec's `InvalidSelectionError`: its two triggering conditions at
lines 64–66 (empty selection) and line 69 (unknown column). -/
inductive InvalidSelectionError
  | emptySelection
  | unknownColumn

deriving instance DecidableEq for InvalidSelectionError

/-- `df[selected_cols]` (line 69): every requested name must be a column
(else `KeyError`, modelled as `none`); the result has one column per
requested name, in requested order, each carrying the source column's
cells. -/
def DataFrame.select (df : DataFrame) (sel : List String) : Option DataFrame :=
  if sel.all (fun c => df.columns.contains c) then
    some ⟨sel, df.rows.map (fun r => sel.map (fun c => r.getD (df.columns.indexOf c) ""))⟩
  else none

/-- The spec's `project`: the code path of lines 64–69 — the
empty-selection guard, then `df[selected_cols]`. -/
def project (df : DataFrame) (sel : List String) : Except InvalidSelectionError DataFrame :=
  if sel.isEmpty then .error .emptySelection
  else
    match df.select sel with
    | some out => .ok out
    | none => .error .unknownColumn

/-- `to_csv_bytes` (lines 18–20): `df.to_csv(index=False)` — header line
first, every row `\n`-terminated, minimal quoting, no index column —
UTF-8 encoded; the bytes are modelled as the string they encode. -/
def to_csv_bytes (df : DataFrame) : String :=
  String.mk (renderCSV ((df.columns.map (fun c => c.data)) ::
    df.rows.map (fun r => r.map (fun v => v.data))))

/-- Cell access by row index and column name. -/
def DataFrame.cell (df : DataFrame) (i : Nat) (c : String) : String :=
  (df.rows.getD i []).getD (df.columns.indexOf c) ""

/-- How one run of `main` ends: an `st.stop` short-circuit, an uncaught
exception, or a served download. -/
inductive AppOutcome
  | stopped
  | crashed
  | downloaded (csv : String)

deriving instance DecidableEq for AppOutcome

/-- The control flow of `main` (lines 23–86) on the state the UI hands
it: `upload` is the uploaded content (if any); `choose` is the
multiselect, mapping the offered options — `df.columns.tolist()`,
line 56 — to the user's selection. -/
def appMain (upload : Option String) (choose : List String → List String) : AppOutcome :=
  match upload with
  | none => .stopped
  | some s =>
    match read_csv s with
    | .error _ => .stopped
    | .ok df =>
      if df.empty then .stopped
      else
        let sel := choose df.columns
        if sel.isEmpty then .stopped
        else
          match project df sel with
          | .ok filtered => .downloaded (to_csv_bytes filtered)
          | .error _ => .crashed

/-! ## Lemmas: the writer and the reader invert each other -/

/-- The characters that may legally follow a rendered field inside a
record line: nothing, a delimiter, or the end of the line. -/
def sepHead : List Char → Prop
  | [] => True
  | c :: _ => c = ',' ∨ c = '\n'

theorem sepHead_not_quote {c : Char} {t : List Char} (h : sepHead (c :: t)) : c ≠ '"' := by
  rcases h with h | h <;> subst h <;> decide

theorem needsQuote_cons {c : Char} {f : CsvField} (h : needsQuote (c :: f) = false) :
    (c ≠ ',' ∧ c ≠ '"' ∧ c ≠ '\n' ∧ c ≠ '\r') ∧ needsQuote f = false := by
  simp only [needsQuote, List.any_cons, Bool.or_eq_false_iff] at h
  rcases h with ⟨h1, h2⟩
  have h1' : ((¬c = ',' ∧ ¬c = '"') ∧ ¬c = '\n') ∧ ¬c = '\r' := by simpa using h1
  exact ⟨⟨h1'.1.1.1, h1'.1.1.2, h1'.1.2, h1'.2⟩, h2⟩

theorem parseUnquotedBody_append (f : CsvField) (rest : List Char)
    (hf : needsQuote f = false) (hr : sepHead rest) :
    parseUnquotedBody (f ++ rest) = (f, rest) := by
  induction f with
  | nil =>
    simp only [List.nil_append]
    cases rest with
    | nil => rfl
    | cons c t =>
      rcases hr with h | h <;> subst h <;> simp [parseUnquotedBody]
  | cons c f ih =>
    obtain ⟨⟨h1, _, h3, _⟩, hf'⟩ := needsQuote_cons hf
    have hcond : ¬(c = ',' ∨ c = '\n') := by
      rintro (h | h) <;> [exact h1 h; exact h3 h]
    simp [parseUnquotedBody, hcond, ih hf']

theorem parseQuotedBody_cons_ne {c : Char} (hc : ¬c = '"') (l : List Char) :
    parseQuotedBody (c :: l) = ((parseQuotedBody l).1.cons c, (parseQuotedBody l).2) := by
  conv_lhs => rw [parseQuotedBody.eq_def]
  simp [hc]

theorem parseQuotedBody_append (f : CsvField) (rest : List Char) (hr : sepHead rest) :
    parseQuotedBody (escapeQuotes f ++ '"' :: rest) = (f, rest) := by
  induction f with
  | nil =>
    simp only [escapeQuotes, List.nil_append]
    cases rest with
    | nil => rfl
    | cons c t =>
      have hc : ¬c = '"' := sepHead_not_quote hr
      simp [parseQuotedBody, hc]
  | cons c f ih =>
    by_cases hc : c = '"'
    · subst hc
      simp [escapeQuotes, parseQuotedBody, ih]
    · simp only [escapeQuotes, hc, if_false, List.cons_append]
      rw [parseQuotedBody_cons_ne hc, ih]

theorem parseField1_append (f : CsvField) (rest : List Char) (hr : sepHead rest) :
    parseField1 (renderField f ++ rest) = (f, rest) := by
  by_cases hq : needsQuote f
  · simp only [renderField, hq, if_true, List.cons_append, List.append_assoc,
      List.singleton_append]
    simp [parseField1, parseQuotedBody_append f rest hr]
  · have hq' : needsQuote f = false := by simpa using hq
    simp only [renderField, hq', Bool.false_eq_true, if_false]
    cases f with
    | nil =>
      simp only [List.nil_append]
      cases rest with
      | nil => rfl
      | cons c t =>
        have hc : ¬c = '"' := sepHead_not_quote hr
        simp only [parseField1, hc, if_false]
        exact parseUnquotedBody_append [] (c :: t) rfl hr
    | cons c f' =>
      obtain ⟨⟨_, h2, _, _⟩, _⟩ := needsQuote_cons hq'
      simp only [List.cons_append, parseField1, h2, if_false]
      exact parseUnquotedBody_append (c :: f') rest hq' hr

theorem renderRecord_length (r : List CsvField) : r.length ≤ (renderRecord r).length + 1 := by
  induction r with
  | nil => simp [renderRecord]
  | cons f fs ih =>
    cases fs with
    | nil => simp [renderRecord]
    | cons g gs =>
      rw [renderRecord]
      simp only [List.length_append, List.length_cons] at ih ⊢
      omega

theorem parseRecordF_succ (n : Nat) (l : List Char) :
    parseRecordF (n + 1) l =
      (match (parseField1 l).2 with
       | [] => ([(parseField1 l).1], [])
       | c :: rest =>
         if c = ',' then
           ((parseField1 l).1 :: (parseRecordF n rest).1, (parseRecordF n rest).2)
         else if c = '\n' then ([(parseField1 l).1], rest)
         else ((parseField1 l).1 :: (parseRecordF n rest).1, (parseRecordF n rest).2)) := rfl

theorem parseRecordF_render (r : List CsvField) (rest : List Char) (fuel : Nat)
    (hne : r ≠ []) (hfuel : r.length ≤ fuel) :
    parseRecordF fuel (renderRecord r ++ '\n' :: rest) = (r, rest) := by
  induction r generalizing fuel rest with
  | nil => exact absurd rfl hne
  | cons f fs ih =>
    obtain ⟨n, rfl⟩ : ∃ n, fuel = n + 1 :=
      ⟨fuel - 1, by simp only [List.length_cons] at hfuel; omega⟩
    cases fs with
    | nil =>
      rw [renderRecord, parseRecordF_succ, parseField1_append f ('\n' :: rest) (Or.inr rfl)]
      simp
    | cons g gs =>
      rw [renderRecord, List.append_assoc, List.cons_append, parseRecordF_succ,
        parseField1_append f (',' :: (renderRecord (g :: gs) ++ '\n' :: rest)) (Or.inl rfl)]
      have hb : (g :: gs).length ≤ n := by simp only [List.length_cons] at hfuel ⊢; omega
      simp [ih rest n (by simp) hb]

theorem renderCSV_length (rs : List (List CsvField)) : rs.length ≤ (renderCSV rs).length := by
  induction rs with
  | nil => simp [renderCSV]
  | cons r rs ih =>
    rw [renderCSV]
    simp only [List.length_append, List.length_cons]
    omega

theorem parseRecordsF_render (rs : List (List CsvField)) (fuel : Nat)
    (hne : ∀ r ∈ rs, r ≠ []) (hfuel : rs.length ≤ fuel) :
    parseRecordsF fuel (renderCSV rs) = rs := by
  induction rs generalizing fuel with
  | nil => cases fuel <;> rfl
  | cons r rs ih =>
    obtain ⟨n, rfl⟩ : ∃ n, fuel = n + 1 :=
      ⟨fuel - 1, by simp only [List.length_cons] at hfuel; omega⟩
    rw [renderCSV, parseRecordsF]
    have hlen : (renderRecord r ++ '\n' :: renderCSV rs).isEmpty = false := by
      simp [List.isEmpty_eq_false]
    rw [hlen]
    simp only [Bool.false_eq_true, if_false]
    rw [parseRecordF_render r (renderCSV rs) _ (hne r (by simp)) ?_]
    · rw [ih n (fun x hx => hne x (List.mem_cons_of_mem _ hx))
        (by simp only [List.length_cons] at hfuel; omega)]
    · have h1 := renderRecord_length r
      simp only [List.length_append, List.length_cons]
      omega

theorem string_mk_data (s : String) : String.mk s.data = s := by
  cases s
  rfl

theorem read_csv_to_csv_bytes (cols : List String) (rows : List (List String))
    (hcols : cols ≠ [])
    (hblankcol : "" ∉ cols)
    (hlen : ∀ r ∈ rows, r.length = cols.length)
    (hblankrow : ∀ r ∈ rows, r ≠ [""]) :
    read_csv (to_csv_bytes ⟨cols, rows⟩) = .ok ⟨cols, rows⟩ := by
  have hcolpos : 0 < cols.length := List.length_pos.mpr hcols
  set recs : List (List CsvField) :=
    (cols.map (fun c => c.data)) :: rows.map (fun r => r.map (fun v => v.data)) with hrecs
  have hne : ∀ r ∈ recs, r ≠ [] := by
    intro r hr
    rw [hrecs, List.mem_cons] at hr
    rcases hr with rfl | hr
    · simpa [List.map_eq_nil_iff] using hcols
    · obtain ⟨r0, hr0, rfl⟩ := List.mem_map.1 hr
      have h0 := hlen r0 hr0
      intro hcontra
      rw [List.map_eq_nil_iff] at hcontra
      subst hcontra
      simp only [List.length_nil] at h0
      omega
  have hdata : (to_csv_bytes ⟨cols, rows⟩).data = renderCSV recs := rfl
  have hfuel : recs.length ≤ (renderCSV recs).length + 1 :=
    Nat.le_succ_of_le (renderCSV_length recs)
  have hparse : parseRecordsF ((to_csv_bytes ⟨cols, rows⟩).data.length + 1)
      (to_csv_bytes ⟨cols, rows⟩).data = recs := by
    rw [hdata]
    exact parseRecordsF_render recs _ hne hfuel
  have hnotblank : ∀ r ∈ recs, r ≠ [[]] := by
    intro r hr
    rw [hrecs, List.mem_cons] at hr
    rcases hr with rfl | hr
    · intro hcontra
      apply hblankcol
      cases cols with
      | nil => simp at hcontra
      | cons a t =>
        simp only [List.map_cons, List.cons.injEq] at hcontra
        obtain ⟨h1, h2⟩ := hcontra
        rw [List.map_eq_nil_iff] at h2
        have ha : a = "" := by
          have := string_mk_data a
          rw [h1] at this
          simpa using this.symm
        simp [ha, h2]
    · obtain ⟨r0, hr0, rfl⟩ := List.mem_map.1 hr
      intro hcontra
      apply hblankrow r0 hr0
      cases r0 with
      | nil => simp at hcontra
      | cons a t =>
        simp only [List.map_cons, List.cons.injEq] at hcontra
        obtain ⟨h1, h2⟩ := hcontra
        rw [List.map_eq_nil_iff] at h2
        have ha : a = "" := by
          have := string_mk_data a
          rw [h1] at this
          simpa using this.symm
        simp [ha, h2]
  have hfilter : recs.filter (fun r => r ≠ [[]]) = recs :=
    List.filter_eq_self.mpr (fun a ha => by simpa using hnotblank a ha)
  simp only [read_csv, hparse, hfilter, hrecs]
  have hanyfalse : (rows.map (fun r => r.map (fun v => v.data))).any
      (fun r => (cols.map (fun c => c.data)).length < r.length) = false := by
    rw [List.any_eq_false]
    intro x hx
    obtain ⟨r0, hr0, rfl⟩ := List.mem_map.1 hx
    simp [hlen r0 hr0]
  rw [hanyfalse]
  simp only [Bool.false_eq_true, if_false, Except.ok.injEq, DataFrame.mk.injEq]
  constructor
  · rw [List.map_map]
    exact List.map_id'' (fun a => string_mk_data a) cols
  · rw [List.map_map]
    have key : ∀ r0 ∈ rows,
        ((padRow (cols.map (fun c => c.data)).length (r0.map (fun v => v.data))).map
          (fun f => String.mk f)) = r0 := by
      intro r0 hr0
      have hl : (r0.map (fun v => v.data)).length = (cols.map (fun c => c.data)).length := by
        simp [hlen r0 hr0]
      rw [padRow, hl, Nat.sub_self, List.replicate_zero, List.append_nil, List.map_map]
      exact List.map_id'' (fun a => string_mk_data a) r0
    calc rows.map _ = rows.map id := List.map_congr_left (fun a ha => key a ha)
      _ = rows := List.map_id rows

/-! ## Lemmas: column selection -/

theorem all_contains_of_mem {cols sel : List String} (h : ∀ c ∈ sel, c ∈ cols) :
    sel.all (fun c => cols.contains c) = true := by
  rw [List.all_eq_true]
  intro x hx
  exact List.elem_iff.mpr (h x hx)

theorem project_ok {df : DataFrame} {sel : List String} (hne : sel ≠ [])
    (hsub : ∀ c ∈ sel, c ∈ df.columns) :
    project df sel =
      .ok ⟨sel, df.rows.map (fun r => sel.map (fun c => r.getD (df.columns.indexOf c) ""))⟩ := by
  have hempty : sel.isEmpty = false := by simp [List.isEmpty_eq_false, hne]
  have h1 : df.select sel =
      some ⟨sel, df.rows.map (fun r => sel.map (fun c => r.getD (df.columns.indexOf c) ""))⟩ := by
    rw [DataFrame.select, if_pos (all_contains_of_mem hsub)]
  simp only [project, hempty, Bool.false_eq_true, if_false, h1]

theorem projected_row (df : DataFrame) (sel : List String) (i : Nat) (hi : i < df.rows.length) :
    ((df.rows.map (fun r => sel.map (fun c' => r.getD (df.columns.indexOf c') ""))).getD i [])
      = sel.map (fun c' => (df.rows.getD i []).getD (df.columns.indexOf c') "") := by
  simp only [List.getD_eq_getElem?_getD, List.getElem?_map, List.getElem?_eq_getElem hi,
    Option.map_some', Option.getD_some]

theorem cell_project {df : DataFrame} {sel : List String} (i : Nat) (hi : i < df.rows.length)
    (c : String) (hc : c ∈ sel) :
    (DataFrame.mk sel
        (df.rows.map (fun r => sel.map (fun c' => r.getD (df.columns.indexOf c') "")))).cell i c
      = df.cell i c := by
  unfold DataFrame.cell
  dsimp only
  rw [projected_row df sel i hi]
  have hidx : sel.indexOf c < sel.length := List.indexOf_lt_length.mpr hc
  have hmaplen : sel.indexOf c <
      (sel.map (fun c' => (df.rows.getD i []).getD (df.columns.indexOf c') "")).length := by
    simpa using hidx
  rw [List.getD_eq_getElem _ _ hmaplen, List.getElem_map, List.getElem_indexOf hidx]

theorem selfSelect_row (cols : List String) (r : List String)
    (hnodup : cols.Nodup) (hlenr : r.length = cols.length) :
    cols.map (fun c => r.getD (cols.indexOf c) "") = r := by
  apply List.ext_getElem
  · simp [hlenr]
  · intro j h1 h2
    have hj : j < cols.length := by simpa using h1
    rw [List.getElem_map, List.indexOf_getElem hnodup j hj]
    exact List.getD_eq_getElem r "" h2

/-! ## Claim theorems -/

/-- C1: for every valid document and every non-empty selection of
distinct column names all present in the document, `project` succeeds and
returns a document whose columns are exactly the selected names in
selection order, with the same number of rows, and whose every cell
equals the corresponding cell of the source (rows in original order,
matched by index). -/
theorem project_order_and_row_faithful (df : DataFrame) (sel : List String)
    (hvalid : df.valid) (hne : sel ≠ []) (hnodup : sel.Nodup)
    (hsub : ∀ c ∈ sel, c ∈ df.columns) :
    ∃ out, project df sel = .ok out ∧ out.columns = sel ∧
      out.rows.length = df.rows.length ∧
      ∀ i < df.rows.length, ∀ c ∈ sel, out.cell i c = df.cell i c := by
  refine ⟨_, project_ok hne hsub, rfl, by simp, ?_⟩
  intro i hi c hc
  exact cell_project i hi c hc

/-- C1 witness: the faithfulness theorem applied to a concrete document
and selection. -/
theorem project_order_and_row_faithful_witness :
    ∃ out, project ⟨["a", "b", "c"], [["1", "2", "3"], ["4", "5", "6"]]⟩ ["c", "a"] = .ok out ∧
      out.columns = ["c", "a"] ∧
      out.rows.length = (⟨["a", "b", "c"], [["1", "2", "3"], ["4", "5", "6"]]⟩ :
        DataFrame).rows.length ∧
      ∀ i < (⟨["a", "b", "c"], [["1", "2", "3"], ["4", "5", "6"]]⟩ : DataFrame).rows.length,
        ∀ c ∈ ["c", "a"],
          out.cell i c = DataFrame.cell ⟨["a", "b", "c"], [["1", "2", "3"], ["4", "5", "6"]]⟩ i c :=
  project_order_and_row_faithful ⟨["a", "b", "c"], [["1", "2", "3"], ["4", "5", "6"]]⟩
    ["c", "a"] (by decide) (by decide) (by decide) (by decide)

/-- C2: for every valid document and non-empty selection of existing
columns, `project` succeeds and preserves the row count. -/
theorem project_preserves_row_count (df : DataFrame) (sel : List String)
    (hvalid : df.valid) (hne : sel ≠ []) (hsub : ∀ c ∈ sel, c ∈ df.columns) :
    ∃ out, project df sel = .ok out ∧ out.rows.length = df.rows.length :=
  ⟨_, project_ok hne hsub, by simp⟩

/-- C2 witness: the row-count theorem applied to a concrete document and
selection. -/
theorem project_preserves_row_count_witness :
    ∃ out, project ⟨["x", "y"], [["1", "2"], ["3", "4"], ["5", "6"]]⟩ ["y"] = .ok out ∧
      out.rows.length =
        (⟨["x", "y"], [["1", "2"], ["3", "4"], ["5", "6"]]⟩ : DataFrame).rows.length :=
  project_preserves_row_count ⟨["x", "y"], [["1", "2"], ["3", "4"], ["5", "6"]]⟩ ["y"]
    (by decide) (by decide) (by decide)

/-- C3: an empty selection is rejected with the empty-selection kind of
`InvalidSelectionError` (the guard of lines 64–66), and a selection
naming a column absent from the document fails with an
`InvalidSelectionError` (the `KeyError` of line 69). -/
theorem project_rejects_invalid_selection (df : DataFrame) (sel : List String) :
    project df [] = .error .emptySelection ∧
    ((∃ c ∈ sel, c ∉ df.columns) → ∃ e, project df sel = .error e) := by
  refine ⟨rfl, ?_⟩
  rintro ⟨c, hc, hnc⟩
  have hne : sel ≠ [] := by rintro rfl; simp at hc
  have hempty : sel.isEmpty = false := by simp [List.isEmpty_eq_false, hne]
  have hall : sel.all (fun c' => df.columns.contains c') = false := by
    rw [List.all_eq_false]
    refine ⟨c, hc, ?_⟩
    simp only [Bool.not_eq_true]
    rw [Bool.eq_false_iff]
    intro hcontra
    exact hnc (List.elem_iff.mp hcontra)
  have hsel : df.select sel = none := by
    rw [DataFrame.select, if_neg (by rw [hall]; simp)]
  refine ⟨.unknownColumn, ?_⟩
  simp only [project, hempty, Bool.false_eq_true, if_false, hsel]

/-- C3 witness: the rejection theorem applied to a concrete document and
an unknown column name. -/
theorem project_rejects_invalid_selection_witness :
    ∃ e, project ⟨["a"], [["1"]]⟩ ["nonexistent"] = .error e :=
  (project_rejects_invalid_selection ⟨["a"], [["1"]]⟩ ["nonexistent"]).2
    ⟨"nonexistent", by decide, by decide⟩

/-- C5 counterexample: on the valid document with columns `a, b` the
selection `["a", "a"]` does not yield a document containing the
requested column once — `df[["a", "a"]]` duplicates the column, exactly
as pandas does. -/
theorem project_duplicate_counterexample :
    DataFrame.valid ⟨["a", "b"], [["1", "2"]]⟩ ∧
    project ⟨["a", "b"], [["1", "2"]]⟩ ["a", "a"] = .ok ⟨["a", "a"], [["1", "1"]]⟩ ∧
    (DataFrame.mk ["a", "a"] [["1", "1"]]).columns.count "a" ≠ 1 :=
  ⟨by decide, rfl, by decide⟩

/-- C5 amended: for a valid document and a non-empty selection of
existing names, `project` returns one output column per entry of the
selection, in selection order — a name selected twice appears twice —
and every output cell equals the source cell of the column named at
that position. -/
theorem project_duplicates_kept (df : DataFrame) (sel : List String)
    (hvalid : df.valid) (hne : sel ≠ []) (hsub : ∀ c ∈ sel, c ∈ df.columns) :
    ∃ out, project df sel = .ok out ∧ out.columns = sel ∧
      out.rows.length = df.rows.length ∧
      ∀ i < df.rows.length, ∀ j < sel.length,
        (out.rows.getD i []).getD j "" = df.cell i (sel.getD j "") := by
  refine ⟨_, project_ok hne hsub, rfl, by simp, ?_⟩
  intro i hi j hj
  dsimp only
  rw [projected_row df sel i hi]
  have hmaplen : j <
      (sel.map (fun c' => (df.rows.getD i []).getD (df.columns.indexOf c') "")).length := by
    simpa using hj
  rw [List.getD_eq_getElem _ _ hmaplen, List.getElem_map, List.getD_eq_getElem _ _ hj]
  rfl

/-- C5 amended witness: the duplication theorem applied to a concrete
document and a duplicated selection. -/
theorem project_duplicates_kept_witness :
    ∃ out, project ⟨["a", "b"], [["1", "2"]]⟩ ["a", "a"] = .ok out ∧
      out.columns = ["a", "a"] ∧
      out.rows.length = (⟨["a", "b"], [["1", "2"]]⟩ : DataFrame).rows.length ∧
      ∀ i < (⟨["a", "b"], [["1", "2"]]⟩ : DataFrame).rows.length,
        ∀ j < (["a", "a"] : List String).length,
          (out.rows.getD i []).getD j "" =
            DataFrame.cell ⟨["a", "b"], [["1", "2"]]⟩ i ((["a", "a"] : List String).getD j "") :=
  project_duplicates_kept ⟨["a", "b"], [["1", "2"]]⟩ ["a", "a"]
    (by decide) (by decide) (by decide)

/-- C9: projecting a valid document onto all of its columns in their
original order returns the document unchanged. -/
theorem project_full_selection_identity (df : DataFrame)
    (hvalid : df.valid) (hne : df.columns ≠ []) :
    project df df.columns = .ok df := by
  obtain ⟨cols, rows⟩ := df
  obtain ⟨hnodup, hlen⟩ := hvalid
  rw [project_ok hne (fun c hc => hc)]
  simp only [Except.ok.injEq, DataFrame.mk.injEq, true_and]
  calc rows.map _ = rows.map id :=
        List.map_congr_left (fun r hr => selfSelect_row cols r hnodup (hlen r hr))
    _ = rows := List.map_id rows

/-- C9 witness: the full-selection identity applied to a concrete
document. -/
theorem project_full_selection_identity_witness :
    project ⟨["a", "b"], [["1", "2"], ["3", "4"]]⟩
      (DataFrame.columns ⟨["a", "b"], [["1", "2"], ["3", "4"]]⟩) =
      .ok ⟨["a", "b"], [["1", "2"], ["3", "4"]]⟩ :=
  project_full_selection_identity ⟨["a", "b"], [["1", "2"], ["3", "4"]]⟩ (by decide) (by decide)

/-- C4: the parse stage fails with the empty-document kind exactly when
`pd.read_csv` itself succeeded and the parsed frame is empty (zero rows
or zero columns); input that `read_csv` rejects fails with the
parse-error kind instead, so the two conditions are distinguishable.
Concretely, a header-only CSV is an empty document while zero bytes are
a parse error. -/
theorem parse_empty_vs_unreadable (s : String) :
    (parseDoc s = .error .emptyDocument ↔ ∃ df, read_csv s = .ok df ∧ df.empty = true) ∧
    (parseDoc s = .error .parseError ↔ read_csv s = .error .parseError) ∧
    parseDoc "name,age\n" = .error .emptyDocument ∧
    parseDoc "" = .error .parseError := by
  refine ⟨?_, ?_, rfl, rfl⟩
  · cases hr : read_csv s with
    | error e =>
      cases e
      simp [parseDoc, hr]
    | ok df =>
      by_cases he : df.empty = true
      · simp [parseDoc, hr, he]
      · simp [parseDoc, hr, he]
  · cases hr : read_csv s with
    | error e =>
      cases e
      simp [parseDoc, hr]
    | ok df =>
      by_cases he : df.empty = true
      · simp [parseDoc, hr, he]
      · simp [parseDoc, hr, he]

/-- C6: the serialized bytes start with the header record — the column
names, in stored order, with no row-index column — and a cell containing
the delimiter is re-emitted quoted, as in
`name,note\nAlice,"hello, world"\n`. -/
theorem serialize_header_and_quoting :
    (∀ df : DataFrame, df.columns ≠ [] →
      (parseRecordF ((to_csv_bytes df).data.length + 1) (to_csv_bytes df).data).1
        = df.columns.map (fun c => c.data)) ∧
    to_csv_bytes ⟨["name", "note"], [["Alice", "hello, world"]]⟩
      = "name,note\nAlice,\"hello, world\"\n" := by
  refine ⟨?_, rfl⟩
  intro df hcols
  obtain ⟨cols, rows⟩ := df
  have hne : cols.map (fun c => c.data) ≠ [] := by
    simpa [List.map_eq_nil_iff] using hcols
  have hdata : (to_csv_bytes ⟨cols, rows⟩).data
      = renderCSV ((cols.map (fun c => c.data)) ::
          rows.map (fun r => r.map (fun v => v.data))) := rfl
  rw [hdata, renderCSV]
  rw [parseRecordF_render (cols.map fun c => c.data) _ _ hne ?_]
  · have h1 := renderRecord_length (cols.map fun c => c.data)
    simp only [List.length_map] at h1 ⊢
    simp only [List.length_append, List.length_cons]
    omega

/-- C7: on the concrete input `name,age,city\nAlice,30,NYC\nBob,25,LA\n`
with selection `["city", "name"]`, the full pipeline — parse, project,
serialize — produces exactly `city,name\nNYC,Alice\nLA,Bob\n`. -/
theorem pipeline_concrete_scenario :
    ∃ df out,
      parseDoc "name,age,city\nAlice,30,NYC\nBob,25,LA\n" = .ok df ∧
      project df ["city", "name"] = .ok out ∧
      to_csv_bytes out = "city,name\nNYC,Alice\nLA,Bob\n" :=
  ⟨⟨["name", "age", "city"], [["Alice", "30", "NYC"], ["Bob", "25", "LA"]]⟩,
   ⟨["city", "name"], [["NYC", "Alice"], ["LA", "Bob"]]⟩, rfl, rfl, rfl⟩

/-- C6 witness: the header-first conjunct applied to a concrete
document. -/
theorem serialize_header_and_quoting_witness :
    (parseRecordF ((to_csv_bytes ⟨["a", "b"], [["1", "2"]]⟩).data.length + 1)
        (to_csv_bytes ⟨["a", "b"], [["1", "2"]]⟩).data).1
      = (DataFrame.columns ⟨["a", "b"], [["1", "2"]]⟩).map (fun c => c.data) :=
  serialize_header_and_quoting.1 ⟨["a", "b"], [["1", "2"]]⟩ (by decide)

/-- C8 counterexample: the valid one-column document whose single row
holds the empty (missing) value serializes to `a\n\n`; the blank data
line is skipped on re-parsing, so the parse stage reports an empty
document instead of returning the original document — the round trip
fails. -/
theorem roundtrip_counterexample :
    DataFrame.valid ⟨["a"], [[""]]⟩ ∧
    (⟨["a"], [[""]]⟩ : DataFrame).rows ≠ [] ∧
    parseDoc (to_csv_bytes ⟨["a"], [[""]]⟩) = .error .emptyDocument :=
  ⟨by decide, by decide, rfl⟩

/-- C8 amended: for every valid document with at least one column and at
least one row, no empty column name, and no row rendering as a blank
line (that is, no all-empty row of a single-column document),
re-parsing the serialized bytes returns exactly the original document. -/
theorem roundtrip_parse_serialize (df : DataFrame)
    (hvalid : df.valid) (hcols : df.columns ≠ []) (hrows : df.rows ≠ [])
    (hblankcol : "" ∉ df.columns) (hblankrow : ∀ r ∈ df.rows, r ≠ [""]) :
    parseDoc (to_csv_bytes df) = .ok df := by
  obtain ⟨cols, rows⟩ := df
  obtain ⟨hnodup, hlen⟩ := hvalid
  have h1 := read_csv_to_csv_bytes cols rows hcols hblankcol hlen hblankrow
  have hemp : (DataFrame.mk cols rows).empty = false := by
    simp only [DataFrame.empty, Bool.or_eq_false_iff, List.isEmpty_eq_false]
    exact ⟨hrows, hcols⟩
  simp only [parseDoc, h1, hemp, Bool.false_eq_true, if_false]

/-- C8 amended witness: the round-trip theorem applied to a concrete
document with a quoted cell. -/
theorem roundtrip_parse_serialize_witness :
    parseDoc (to_csv_bytes ⟨["name", "note"], [["Alice", "hello, world"]]⟩)
      = .ok ⟨["name", "note"], [["Alice", "hello, world"]]⟩ :=
  roundtrip_parse_serialize ⟨["name", "note"], [["Alice", "hello, world"]]⟩
    (by decide) (by decide) (by decide) (by decide) (by decide)

/-- C10: in the assembled app, when the multiselect can only return
names drawn from the options it was given (`df.columns`, line 56), the
projection step at line 69 can never fail — no `KeyError` and no
empty-selection projection is reachable, so the app never crashes. -/
theorem app_projection_errors_unreachable (upload : Option String)
    (choose : List String → List String)
    (hchoose : ∀ opts, ∀ c ∈ choose opts, c ∈ opts) :
    appMain upload choose ≠ .crashed := by
  cases upload with
  | none => simp [appMain]
  | some s =>
    cases hr : read_csv s with
    | error e => simp [appMain, hr]
    | ok df =>
      by_cases he : df.empty = true
      · simp [appMain, hr, he]
      · by_cases hsel : choose df.columns = []
        · simp [appMain, hr, he, hsel]
        · have hproj := project_ok hsel (hchoose df.columns)
          simp [appMain, hr, he, hsel, hproj]

/-- C10 witness: the unreachability theorem applied to a concrete upload
and the identity multiselect. -/
theorem app_projection_errors_unreachable_witness :
    appMain (some "a,b\n1,2\n") (fun opts => opts) ≠ .crashed :=
  app_projection_errors_unreachable (some "a,b\n1,2\n") (fun opts => opts)
    (fun _ _ h => h)
